import Mathlib

/-!
Verification of the RAG_Eval retrieval service against its specification.

The definitions below are a shallow embedding of the Python sources:

* app/utils/llm_manager.py        (rerank_docs)
* app/services/hybrid_rag_service.py (index_hybrid_collection, searches)
* app/services/pdf_service.py     (extract_content_from_pdf splitter parameters)
* app/utils/collection.py         (update_registry, list_files)
* app/controllers/pdf_controller.py (process_files and the query endpoints)

External collaborators (the Qdrant vector store, the embedding models, the
cross encoder and the LLM) are modelled at their interfaces: the store is a
list of points with filter semantics as described by the specification of
queryPoints, and model calls are abstract function parameters.  Scalar
scores returned by the cross encoder are modelled over Int: every claim
settled here is order-theoretic in the scores, so any linear order works.
-/

/-! ## Reranking: llm_manager.LLMManager.rerank_docs

The Python code builds (score, doc) pairs with zip, applies
sorted(..., reverse=True, key=fst) - a stable descending sort on the
score - and keeps the first 4 entries.  Stable descending sorting is
embedded as insertion keeping earlier elements in front of later
elements with an equal score. -/

def insertDesc {α : Type} (x : Int × α) : List (Int × α) → List (Int × α)
  | [] => [x]
  | y :: ys => if y.1 ≤ x.1 then x :: y :: ys else y :: insertDesc x ys

def sortDesc {α : Type} : List (Int × α) → List (Int × α)
  | [] => []
  | x :: xs => insertDesc x (sortDesc xs)

/-- The full ranked list before truncation: pair every document with its
cross encoder score, stable-sort descending on the score, drop the scores. -/
def rankedAll {α : Type} (score : α → Int) (documents : List α) : List α :=
  (sortDesc (documents.map (fun d => (score d, d)))).map Prod.snd

/-- Embedding of LLMManager.rerank_docs: the top 4 of the stable descending
ranking.  (The guard "if doc" in the Python list comprehension never drops a
Qdrant point, every point object is truthy.) -/
def rerank_docs {α : Type} (score : α → Int) (documents : List α) : List α :=
  (rankedAll score documents).take 4

theorem insertDesc_length {α : Type} (x : Int × α) (l : List (Int × α)) :
    (insertDesc x l).length = l.length + 1 := by
  induction l with
  | nil => rfl
  | cons y ys ih =>
    simp only [insertDesc]
    split <;> simp [ih]

theorem sortDesc_length {α : Type} (l : List (Int × α)) :
    (sortDesc l).length = l.length := by
  induction l with
  | nil => rfl
  | cons x xs ih => simp [sortDesc, insertDesc_length, ih]

theorem insertDesc_perm {α : Type} (x : Int × α) (l : List (Int × α)) :
    List.Perm (insertDesc x l) (x :: l) := by
  induction l with
  | nil => rfl
  | cons y ys ih =>
    simp only [insertDesc]
    split
    · rfl
    · exact ((ih.cons y).trans (List.Perm.swap x y ys))

theorem sortDesc_perm {α : Type} (l : List (Int × α)) :
    List.Perm (sortDesc l) l := by
  induction l with
  | nil => rfl
  | cons x xs ih => exact (insertDesc_perm x (sortDesc xs)).trans (ih.cons x)

theorem mem_insertDesc {α : Type} {x z : Int × α} {l : List (Int × α)} :
    z ∈ insertDesc x l ↔ z = x ∨ z ∈ l := by
  rw [(insertDesc_perm x l).mem_iff, List.mem_cons]

theorem insertDesc_pairwise {α : Type} {x : Int × α} {l : List (Int × α)}
    (h : l.Pairwise (fun a b => b.1 ≤ a.1)) :
    (insertDesc x l).Pairwise (fun a b => b.1 ≤ a.1) := by
  induction l with
  | nil => simp [insertDesc]
  | cons y ys ih =>
    rw [List.pairwise_cons] at h
    simp only [insertDesc]
    split
    · rename_i hyx
      refine List.pairwise_cons.2 ⟨?_, List.pairwise_cons.2 ⟨h.1, h.2⟩⟩
      intro z hz
      rcases List.mem_cons.1 hz with hz | hz
      · exact hz ▸ hyx
      · exact le_trans (h.1 z hz) hyx
    · rename_i hyx
      push_neg at hyx
      refine List.pairwise_cons.2 ⟨?_, ih h.2⟩
      intro z hz
      rcases mem_insertDesc.1 hz with hz | hz
      · exact hz ▸ le_of_lt hyx
      · exact h.1 z hz

theorem sortDesc_pairwise {α : Type} (l : List (Int × α)) :
    (sortDesc l).Pairwise (fun a b => b.1 ≤ a.1) := by
  induction l with
  | nil => simp [sortDesc]
  | cons x xs ih => exact insertDesc_pairwise ih

theorem insertDesc_filter_score {α : Type} (s : Int) (x : Int × α)
    (l : List (Int × α)) :
    (insertDesc x l).filter (fun p => p.1 == s) =
      if x.1 == s then x :: l.filter (fun p => p.1 == s)
      else l.filter (fun p => p.1 == s) := by
  induction l with
  | nil =>
    simp only [insertDesc, List.filter_cons, List.filter_nil]
  | cons y ys ih =>
    simp only [insertDesc]
    by_cases hxy : y.1 ≤ x.1
    · simp only [if_pos hxy, List.filter_cons]
    · simp only [if_neg hxy, List.filter_cons, ih]
      by_cases hx : x.1 = s
      · have hy : ¬ y.1 = s := by omega
        simp [hx, hy]
      · by_cases hy : y.1 = s <;> simp [hx, hy]

theorem sortDesc_filter_score {α : Type} (s : Int) (l : List (Int × α)) :
    (sortDesc l).filter (fun p => p.1 == s) = l.filter (fun p => p.1 == s) := by
  induction l with
  | nil => rfl
  | cons x xs ih =>
    simp only [sortDesc, insertDesc_filter_score, ih, List.filter_cons]

theorem rankedAll_filter_score {α : Type} (score : α → Int)
    (documents : List α) (s : Int) :
    (rankedAll score documents).filter (fun d => score d == s) =
      documents.filter (fun d => score d == s) := by
  unfold rankedAll
  rw [List.filter_map]
  have hcongr : (sortDesc (documents.map (fun d => (score d, d)))).filter
      ((fun d => score d == s) ∘ Prod.snd)
      = (sortDesc (documents.map (fun d => (score d, d)))).filter
        (fun p => p.1 == s) := by
    apply List.filter_congr
    intro p hp
    have hmem : p ∈ documents.map (fun d => (score d, d)) :=
      (sortDesc_perm _).mem_iff.1 hp
    obtain ⟨d, _, rfl⟩ := List.mem_map.1 hmem
    rfl
  rw [hcongr, sortDesc_filter_score, List.filter_map]
  have : ((fun p : Int × α => p.1 == s) ∘ fun d => (score d, d))
      = fun d => score d == s := rfl
  rw [this, List.map_map]
  have hid : (Prod.snd ∘ fun d : α => (score d, d)) = id := rfl
  rw [hid, List.map_id]

theorem rankedAll_length {α : Type} (score : α → Int) (documents : List α) :
    (rankedAll score documents).length = documents.length := by
  unfold rankedAll
  rw [List.length_map, sortDesc_length, List.length_map]

theorem rankedAll_mem {α : Type} {score : α → Int} {documents : List α}
    {d : α} (h : d ∈ rankedAll score documents) : d ∈ documents := by
  unfold rankedAll at h
  obtain ⟨p, hp, rfl⟩ := List.mem_map.1 h
  have hmem : p ∈ documents.map (fun d => (score d, d)) :=
    (sortDesc_perm _).mem_iff.1 hp
  obtain ⟨e, he, rfl⟩ := List.mem_map.1 hmem
  exact he

theorem rankedAll_pairwise {α : Type} (score : α → Int) (documents : List α) :
    (rankedAll score documents).Pairwise (fun a b => score b ≤ score a) := by
  unfold rankedAll
  rw [List.pairwise_map]
  have hp := sortDesc_pairwise (documents.map (fun d => (score d, d)))
  refine hp.imp_of_mem ?_
  intro a b ha hb hab
  have hma : a ∈ documents.map (fun d => (score d, d)) :=
    (sortDesc_perm _).mem_iff.1 ha
  have hmb : b ∈ documents.map (fun d => (score d, d)) :=
    (sortDesc_perm _).mem_iff.1 hb
  obtain ⟨da, _, rfl⟩ := List.mem_map.1 hma
  obtain ⟨db, _, rfl⟩ := List.mem_map.1 hmb
  exact hab

/-- C5: rerank_docs returns min(4,|D|) documents, a subset of the input,
sorted in non-increasing cross-encoder score with ties kept in the original
retrieval order (the full ranking is stable: restricted to any one score
value it equals the input restricted to that value), and the empty input
yields the empty output. -/
theorem rerank_docs_contract {α : Type} (score : α → Int)
    (documents : List α) :
    (rerank_docs score documents).length = min 4 documents.length
    ∧ (∀ d ∈ rerank_docs score documents, d ∈ documents)
    ∧ (rerank_docs score documents).Pairwise (fun a b => score b ≤ score a)
    ∧ rerank_docs score documents = (rankedAll score documents).take 4
    ∧ (∀ s : Int, (rankedAll score documents).filter (fun d => score d == s)
        = documents.filter (fun d => score d == s))
    ∧ rerank_docs score ([] : List α) = [] := by
  refine ⟨?_, ?_, ?_, rfl, fun s => rankedAll_filter_score score documents s, rfl⟩
  · rw [rerank_docs, List.length_take, rankedAll_length]
  · intro d hd
    exact rankedAll_mem (List.mem_of_mem_take hd)
  · exact (rankedAll_pairwise score documents).sublist (List.take_sublist _ _)

/-! ## Data model: points and API envelopes -/

/-- A point as returned by a Qdrant query: the payload content and the
metadata.pdf_id used for filtering.  Other payload fields play no role in the
claims settled here. -/
structure ScoredPoint where
  content : String
  pdf_id : String
deriving Repr, DecidableEq

/-- The response envelope built by utils/helper.send_response. -/
structure ApiResponse (α : Type) where
  success : Bool
  status_code : Nat
  message : String
  data : α
deriving Repr, DecidableEq

/-- Embedding of utils/helper.send_response. -/
def send_response {α : Type} (success : Bool) (status : Nat)
    (message : String) (data : α) : ApiResponse α :=
  ⟨success, status, message, data⟩

/-- Result of a controller endpoint: a normal envelope from send_response, or
the error envelope from utils/helper.handle_exception. -/
inductive EndpointResult (α : Type) where
  | ok (resp : ApiResponse α)
  | fail (status : Nat) (message : String)
deriving Repr, DecidableEq

/-! ## The vector store at its interface -/

/-- Modelled from the spec: the external VectorStoreClient.queryPoints filter
semantics (spec section 4.4) - a FieldMatch filter on metadata.pdf_id keeps
exactly the matching points, an omitted filter returns the whole collection,
and at most limit points come back.  Vector similarity ranking happens inside
the external store and is abstracted: points are returned in stored order;
no claim settled against this model depends on that order. -/
def queryPointsModel (collection : List ScoredPoint)
    (filterPdfId : Option String) (limit : Nat) : List ScoredPoint :=
  (match filterPdfId with
   | none => collection
   | some pid => collection.filter (fun p => p.pdf_id == pid)).take limit

/-! ## Query endpoints: pdf_controller retrieval loops -/

/-- Embedding of HybridRagService.hybrid_search: a fused dense+sparse query
with the metadata.pdf_id filter and limit 20, reranked by rerank_docs.
cross q p is the cross encoder score of the pair (q, p.content). -/
def hybrid_search (cross : String → ScoredPoint → Int)
    (collection : List ScoredPoint) (query : String)
    (selected_pdf_id : String) : List ScoredPoint :=
  rerank_docs (cross query) (queryPointsModel collection (some selected_pdf_id) 20)

/-- Embedding of HybridRagService.sparse_search: a sparse query with the
metadata.pdf_id filter, no rerank; the client-side default limit is 10. -/
def sparse_search (collection : List ScoredPoint) (query : String)
    (pdf_id : String) : List ScoredPoint :=
  queryPointsModel collection (some pdf_id) 10

/-- The context concatenation loop shared by all endpoints: append each
retrieved content followed by one space. -/
def appendContents (acc : String) (points : List ScoredPoint) : String :=
  points.foldl (fun a p => a ++ p.content ++ " ") acc

/-- Embedding of PdfController.hybrid_rag_endpoint retrieval (lines 189-199):
one hybrid_search per selected pdf id, contexts concatenated; an empty id
list runs no search at all. -/
def hybrid_combined_context (cross : String → ScoredPoint → Int)
    (collection : List ScoredPoint) (query : String)
    (selected_pdf_ids : List String) : String :=
  selected_pdf_ids.foldl
    (fun acc pid => appendContents acc (hybrid_search cross collection query pid)) ""

/-- Embedding of PdfController.sparse_rag_endpoint retrieval (lines 332-342):
one sparse_search per selected pdf id, no rerank. -/
def sparse_combined_context (collection : List ScoredPoint) (query : String)
    (selected_pdf_ids : List String) : String :=
  selected_pdf_ids.foldl
    (fun acc pid => appendContents acc (sparse_search collection query pid)) ""

/-- Embedding of PdfController.dense_rag_endpoint retrieval (lines 284-298):
embed the query once with create_dense_vector, then for each selected pdf id
run the dense search (external vector similarity, abstracted as dsearch) and
rerank the hits against the query. -/
def dense_combined_context (embedDense : String → Int)
    (dsearch : Int → String → List ScoredPoint)
    (cross : String → ScoredPoint → Int) (query : String)
    (selected_pdf_ids : List String) : String :=
  let dense_query := embedDense query
  selected_pdf_ids.foldl
    (fun acc pid =>
      appendContents acc (rerank_docs (cross query) (dsearch dense_query pid))) ""

/-- Observation record for the HyDE endpoint: the generated hypothetical
document, the dense query vector actually handed to the dense search, and
the combined context. -/
structure HydeRetrieval where
  hypothetical_document : String
  dense_query_used : Int
  combined_context : String
deriving Repr, DecidableEq

/-- Embedding of PdfController.hyde_rag_endpoint retrieval (lines 233-251):
generate the hypothetical document via the LLM, build the dense query vector
with create_dense_vector applied to the original query (source line 237),
then search and rerank against the original query.  llm q c models
HyDEService.generate_response(q, c).content. -/
def hyde_rag_retrieval (llm : String → String → String)
    (embedDense : String → Int) (dsearch : Int → String → List ScoredPoint)
    (cross : String → ScoredPoint → Int) (query : String)
    (selected_pdf_ids : List String) : HydeRetrieval :=
  let hypothetical_document := llm query ""
  let dense_query := embedDense query
  let combined := selected_pdf_ids.foldl
    (fun acc pid =>
      appendContents acc (rerank_docs (cross query) (dsearch dense_query pid))) ""
  ⟨hypothetical_document, dense_query, combined⟩

/-! ## Ingestion: process_files, update_registry, index_hybrid_collection -/

/-- A chunk after metadata assignment (pdf_controller lines 138-145). -/
structure Chunk where
  content : String
  pdf_id : String
  file_name : String
  brain_id : String
deriving Repr, DecidableEq

/-- One uploaded file as the ingestion loop sees it: its name and the result
of extract_content_from_pdf - ok with the chunk contents, or error with the
message of the raised exception. -/
structure IngestFile where
  filename : String
  extract : Except String (List String)
deriving Repr

/-- Observable calls the ingestion request makes against the store. -/
inductive Event where
  | check (file_name : String)
  | register (file_name : String)
  | embedDense (content : String)
  | embedSparse (content : String)
  | upsert (collection : String) (content : String)
deriving Repr, DecidableEq

/-- A point built by index_hybrid_collection.  The vector dictionary may in
principle hold either entry, so both are Options; the payload carries the
chunk content and metadata. -/
structure PointStruct where
  dense : Option Int
  sparse : Option Int
  payload : Chunk
deriving Repr, DecidableEq

/-- The inner loop of HybridRagService.index_hybrid_collection (lines 31-71):
for each chunk compute the dense and the sparse embedding independently (a
raised embedding error becomes None), upsert a point only when both are
present, otherwise count the chunk as invalid.  Returns the upserted points,
the invalid count and the event trace. -/
def indexChunks (embedD embedS : String → Option Int) (brain_id : String) :
    List Chunk → List PointStruct × Nat × List Event
  | [] => ([], 0, [])
  | c :: cs =>
    let dense_embedding := embedD c.content
    let sparse_embedding := embedS c.content
    let rest := indexChunks embedD embedS brain_id cs
    match dense_embedding, sparse_embedding with
    | some dv, some sv =>
        (⟨some dv, some sv, c⟩ :: rest.1, rest.2.1,
         Event.embedDense c.content :: Event.embedSparse c.content ::
           Event.upsert brain_id c.content :: rest.2.2)
    | _, _ =>
        (rest.1, rest.2.1 + 1,
         Event.embedDense c.content :: Event.embedSparse c.content :: rest.2.2)

/-- Outcome of HybridRagService.index_hybrid_collection. -/
structure IndexResult where
  success : Bool
  points : List PointStruct
  invalid_chunks : Nat
  events : List Event
deriving Repr, DecidableEq

/-- Embedding of HybridRagService.index_hybrid_collection: run the chunk
loop, then return True exactly when invalid_chunks == 0 (lines 73-76). -/
def index_hybrid_collection (embedD embedS : String → Option Int)
    (chunks : List Chunk) (brain_id : String) : IndexResult :=
  let r := indexChunks embedD embedS brain_id chunks
  ⟨r.2.1 == 0, r.1, r.2.1, r.2.2⟩

/-- The per-file loop of PdfController.process_files (lines 115-155): dedup
check against the registry, chunk extraction with metadata assignment, and
the registry write (Collection.update_registry); chunks accumulate across
files.  existing is the registry content at the start of the request
(check_files); a name registered earlier in the same request is also seen.
The uuid4 pdf id is modelled as a name-derived tag: no settled claim reads
its value.  The only try/except wraps the whole body, so a raised extraction
error aborts the loop; the error message and the trace so far are returned. -/
def ingestLoop (existing : String → Bool) (brain_id : String) :
    List IngestFile → List String →
    Except (String × List Event) (List Chunk × List Event)
  | [], _ => .ok ([], [])
  | f :: fs, registered =>
    if existing f.filename || registered.contains f.filename then
      match ingestLoop existing brain_id fs registered with
      | .ok (chunks, evs) => .ok (chunks, Event.check f.filename :: evs)
      | .error (msg, evs) => .error (msg, Event.check f.filename :: evs)
    else
      match f.extract with
      | .error e => .error (e, [Event.check f.filename])
      | .ok contents =>
        let pdf_id := "uuid-" ++ f.filename
        let chunks := contents.map (fun c => Chunk.mk c pdf_id f.filename brain_id)
        match ingestLoop existing brain_id fs (f.filename :: registered) with
        | .ok (restChunks, evs) =>
            .ok (chunks ++ restChunks,
              Event.check f.filename :: Event.register f.filename :: evs)
        | .error (msg, evs) =>
            .error (msg,
              Event.check f.filename :: Event.register f.filename :: evs)

/-- Embedding of PdfController.process_files (lines 109-174): run the
per-file loop; a raised exception anywhere yields the handle_exception 500
envelope for the whole batch; otherwise index every accumulated chunk and
map the outcome to 201 or 422, or 404 when there are no chunks. -/
def process_files (embedD embedS : String → Option Int)
    (existing : String → Bool) (files : List IngestFile)
    (brain_id : String) : EndpointResult Unit × List Event :=
  match ingestLoop existing brain_id files [] with
  | .error (e, evs) => (.fail 500 (e ++ " occured during PDF Processing."), evs)
  | .ok (all_chunks, evs) =>
    if all_chunks.isEmpty then
      (.ok (send_response false 404 "No chunks to index." ()), evs)
    else
      let r := index_hybrid_collection embedD embedS all_chunks brain_id
      if r.success then
        (.ok (send_response true 201 "Files Processed Successfully." ()),
         evs ++ r.events)
      else
        (.ok (send_response false 422 "PDF Content not supported for processing." ()),
         evs ++ r.events)

def isRegister : Event → Bool
  | .register _ => true
  | _ => false

def isUpsert : Event → Bool
  | .upsert _ _ => true
  | _ => false

def isCheck : Event → Bool
  | .check _ => true
  | _ => false

/-- True when some registry write is followed, later in the trace, by a
chunk upsert. -/
def registerPrecedesUpsert : List Event → Bool
  | [] => false
  | e :: es => (isRegister e && es.any isUpsert) || registerPrecedesUpsert es

/-- Number of dedup checks in a trace: one per file the loop reached. -/
def countChecks (evs : List Event) : Nat := (evs.filter isCheck).length

/-! ## The all-strategies endpoint: pdf_controller.all_endpoints -/

/-- The data payload of one query endpoint response: the generated answer and
the retrieved context (the two keys of each data dictionary). -/
structure StrategyData where
  rag_response : String
  retriever_response : String
deriving Repr, DecidableEq

/-- The data map assembled by all_endpoints. -/
structure AllData where
  hybrid : StrategyData
  hyde : StrategyData
  dense : StrategyData
  sparse : StrategyData
deriving Repr, DecidableEq

/-- Embedding of PdfController.all_endpoints (lines 365-428): call the four
endpoints on the same request, decode each JSON body back into its envelope
(decoding inverts encoding, and a JSON body is never empty, so the decoded
value is the envelope itself), then assemble the data map.  Source line 410
parses the body of the DENSE response into the variable holding the sparse
result; the embedding mirrors that line. -/
def all_endpoints
    (hybridEp hydeEp denseEp sparseEp : String → ApiResponse StrategyData)
    (payload : String) : ApiResponse AllData :=
  let hybrid_response := hybridEp payload
  let hyde_response := hydeEp payload
  let dense_response := denseEp payload
  let sparse_response := sparseEp payload
  let hybrid_rag_response := hybrid_response
  let hyde_rag_response := hyde_response
  let dense_rag_response := dense_response
  let sparse_rag_response := dense_response
  send_response true 200 "Response generated successfully."
    ⟨hybrid_rag_response.data, hyde_rag_response.data,
     dense_rag_response.data, sparse_rag_response.data⟩

/-! ## Chunk sizing: pdf_service.extract_content_from_pdf -/

/-- Embedding of the splitter construction in
PdfService.extract_content_from_pdf (pdf_service.py line 80):
RecursiveCharacterTextSplitter(chunk_size=600, chunk_overlap=150).  The two
parameters are literals; they do not depend on the document.  The total word
count is taken as an argument so the comparison with adaptive sizing is
statable. -/
def extract_chunk_params (totalWords : Nat) : Nat × Nat := (600, 150)

/-- Written from the words of the spec for the refinement comparison:
base 900; chunk_size = base / 2 when W / base > 1.5 else base; overlap =
clamp(round(chunk_size * 0.2), 50, 200).  W / base > 1.5 is rendered exactly
as 2 * W > 3 * base, and round(chunk_size / 5) as (2 * chunk_size + 5) / 10
over the naturals. -/
def specChunkParams (totalWords : Nat) : Nat × Nat :=
  let base := 900
  let chunk_size := if 2 * totalWords > 3 * base then base / 2 else base
  let overlap := min 200 (max 50 ((2 * chunk_size + 5) / 10))
  (chunk_size, overlap)

/-! ## File listing: Collection.list_files and its endpoint -/

/-- A registry point payload as scroll returns it; the two keys the listing
reads may be absent. -/
structure RegPoint where
  file_name : Option String
  pdf_id : Option String
  brain_id : String
deriving Repr, DecidableEq

/-- One entry of the file listing. -/
structure FileInfo where
  file_name : String
  file_id : String
deriving Repr, DecidableEq

/-- The registry collection at its interface: the count call and the scroll
call of the external store, either of which may raise (modelled as Except).
scroll receives the brain_id filter value and the limit. -/
structure RegistryStore where
  countResult : Except String Nat
  scroll : String → Nat → Except String (List RegPoint)

/-- Embedding of Collection.list_files (collection.py lines 113-159): count
the registry collection, bump a zero count to 1, scroll with the brain_id
filter and that limit, keep the payloads carrying both file_name and pdf_id;
any raised error is caught and the empty list is returned (line 159). -/
def list_files (store : RegistryStore) (brain_id : String) : List FileInfo :=
  match store.countResult with
  | .error _ => []
  | .ok n =>
    let point_count := if n == 0 then n + 1 else n
    match store.scroll brain_id point_count with
    | .error _ => []
    | .ok points =>
        points.filterMap (fun p =>
          match p.file_name, p.pdf_id with
          | some fn, some pid => some (FileInfo.mk fn pid)
          | _, _ => none)

/-- Embedding of PdfController.list_files (pdf_controller lines 83-96): a
non-empty listing is wrapped in a 200 envelope, an empty one in the 404
envelope (whose data field, None in the source, is modelled as the empty
list). -/
def list_files_endpoint (store : RegistryStore) (brain_id : String) :
    EndpointResult (List FileInfo) :=
  let file_info := list_files store brain_id
  if file_info.isEmpty then
    .ok (send_response false 404 "Please upload some PDFs in the selected Brain." [])
  else
    .ok (send_response true 200 "Brains fetched successfully." file_info)

/-- A registry store holding no files: count ok with 0, scroll ok and empty. -/
def emptyRegistryStore : RegistryStore :=
  ⟨.ok 0, fun _ _ => .ok []⟩

/-! ## Claim C1: empty selected_pdfs -/

/-- A one-point brain used to evaluate the endpoints concretely. -/
def c1Collection : List ScoredPoint :=
  [ScoredPoint.mk "The capital of Atlantis is Orichalcum." "p1"]

/-- C1 counterexample: with an empty selected_pdfs list the hybrid endpoint
builds the empty context - the per-pdf loop never runs - while the
unfiltered whole-brain query over the same one-point collection yields a
non-empty context.  The claim that the two coincide, and that the context is
not empty, is false on the code. -/
theorem hybrid_empty_selection_counterexample :
    hybrid_combined_context (fun _ _ => 0) c1Collection "capital of Atlantis" [] = ""
    ∧ appendContents "" (rerank_docs (fun _ => (0 : Int))
        (queryPointsModel c1Collection none 20)) =
        "The capital of Atlantis is Orichalcum. "
    ∧ hybrid_combined_context (fun _ _ => 0) c1Collection "capital of Atlantis" [] ≠
        appendContents "" (rerank_docs (fun _ => (0 : Int))
          (queryPointsModel c1Collection none 20)) := by
  refine ⟨rfl, by decide, by decide⟩

/-- C1 amended: an empty selected_pdfs list makes every one of the four
strategies perform NO search at all - each endpoint loops over the selected
pdf ids, so the combined context is the empty string for any store content,
embedder, scorer, LLM and query; the whole brain is not searched. -/
theorem empty_selection_gives_empty_context
    (cross : String → ScoredPoint → Int) (collection : List ScoredPoint)
    (embedDense : String → Int) (dsearch : Int → String → List ScoredPoint)
    (llm : String → String → String) (query : String) :
    hybrid_combined_context cross collection query [] = ""
    ∧ sparse_combined_context collection query [] = ""
    ∧ dense_combined_context embedDense dsearch cross query [] = ""
    ∧ (hyde_rag_retrieval llm embedDense dsearch cross query []).combined_context = "" :=
  ⟨rfl, rfl, rfl, rfl⟩

/-! ## Claim C6: which text the HyDE strategy embeds -/

/-- Stub LLM returning a fixed hypothetical document. -/
def hydeStubLLM : String → String → String :=
  fun _ _ => "Orichalcum is the capital city of Atlantis."

/-- Stub dense embedder separating the two texts (by length). -/
def hydeStubEmbed : String → Int :=
  fun s => Int.ofNat s.length

/-- The embedded HyDE endpoint evaluated at a concrete request. -/
def hydeCexRun : HydeRetrieval :=
  hyde_rag_retrieval hydeStubLLM hydeStubEmbed (fun _ _ => [])
    (fun _ _ => 0) "capital of Atlantis" ["p1"]

/-- C6: the dense query vector the HyDE endpoint hands to the dense search is
the embedding of the ORIGINAL user query, not of the generated hypothetical
document: pdf_controller line 237 embeds query and the hypothetical document
is never used.  At this concrete request the two embeddings differ, so the
claim fails on the code (the rerank half of the claim does hold: the rerank
scorer is applied to the original query). -/
theorem hyde_embeds_query_not_hypothetical :
    hydeCexRun.hypothetical_document = "Orichalcum is the capital city of Atlantis."
    ∧ hydeCexRun.dense_query_used = hydeStubEmbed "capital of Atlantis"
    ∧ hydeCexRun.dense_query_used ≠ hydeStubEmbed hydeCexRun.hypothetical_document := by
  refine ⟨rfl, rfl, by decide⟩

/-! ## Claim C7: the all-strategies data map -/

/-- Deterministic stub endpoint response carrying its strategy tag. -/
def stubStrategyResponse (tag : String) : ApiResponse StrategyData :=
  send_response true 200 "Response generated successfully."
    (StrategyData.mk (tag ++ " answer") (tag ++ " context"))

/-- all_endpoints evaluated over four deterministic stub endpoints. -/
def allCexRun : ApiResponse AllData :=
  all_endpoints (fun _ => stubStrategyResponse "hybrid")
    (fun _ => stubStrategyResponse "hyde")
    (fun _ => stubStrategyResponse "dense")
    (fun _ => stubStrategyResponse "sparse") "q"

/-- C7: with all providers stubbed deterministic, the all_endpoints data map
equals the single-strategy data for hybrid, hyde and dense, but its sparse
field carries the DENSE endpoint data (source line 410 parses the dense
response body into the sparse variable) and differs from the sparse endpoint
data, so the claim fails on the code. -/
theorem all_endpoints_sparse_holds_dense_data :
    allCexRun.data.hybrid = (stubStrategyResponse "hybrid").data
    ∧ allCexRun.data.hyde = (stubStrategyResponse "hyde").data
    ∧ allCexRun.data.dense = (stubStrategyResponse "dense").data
    ∧ allCexRun.data.sparse = (stubStrategyResponse "dense").data
    ∧ allCexRun.data.sparse ≠ (stubStrategyResponse "sparse").data := by
  refine ⟨rfl, rfl, rfl, rfl, by decide⟩

/-! ## Claim C9: chunk sizing -/

/-- C9 counterexample: the source splitter uses the constants (600, 150)
while the claimed adaptive sizing gives (450, 90) at 2000 words and
(900, 180) at 0 words; the claim fails on the code at both inputs. -/
theorem chunk_params_not_adaptive :
    extract_chunk_params 2000 = (600, 150)
    ∧ specChunkParams 2000 = (450, 90)
    ∧ specChunkParams 0 = (900, 180)
    ∧ extract_chunk_params 2000 ≠ specChunkParams 2000
    ∧ extract_chunk_params 0 ≠ specChunkParams 0 := by
  refine ⟨rfl, by decide, by decide, by decide, by decide⟩

/-- C9 amended: the splitter parameters are the fixed constants
chunk_size 600 and overlap 150 for every document, independent of the word
count. -/
theorem chunk_params_constant (totalWords : Nat) :
    extract_chunk_params totalWords = (600, 150) := rfl

/-! ## Claim C4: no partial points -/

theorem indexChunks_points_eq (embedD embedS : String → Option Int)
    (brain_id : String) (chunks : List Chunk) :
    (indexChunks embedD embedS brain_id chunks).1 =
      (chunks.filter
        (fun c => (embedD c.content).isSome && (embedS c.content).isSome)).map
        (fun c => PointStruct.mk (embedD c.content) (embedS c.content) c) := by
  induction chunks with
  | nil => rfl
  | cons c cs ih =>
    simp only [indexChunks, List.filter_cons]
    cases hd : embedD c.content with
    | none =>
      cases hs : embedS c.content with
      | none => simpa [hd, hs] using ih
      | some sv => simpa [hd, hs] using ih
    | some dv =>
      cases hs : embedS c.content with
      | none => simpa [hd, hs] using ih
      | some sv => simp [hd, hs, ih]

/-- C4: the points upserted by index_hybrid_collection are exactly the
chunks whose dense AND sparse embeddings both succeeded - a chunk with
either embedding failed is skipped - and consequently every stored point
carries both a dense and a sparse vector. -/
theorem index_no_partial_points (embedD embedS : String → Option Int)
    (chunks : List Chunk) (brain_id : String) :
    (index_hybrid_collection embedD embedS chunks brain_id).points =
      (chunks.filter
        (fun c => (embedD c.content).isSome && (embedS c.content).isSome)).map
        (fun c => PointStruct.mk (embedD c.content) (embedS c.content) c)
    ∧ ∀ p ∈ (index_hybrid_collection embedD embedS chunks brain_id).points,
        p.dense.isSome = true ∧ p.sparse.isSome = true := by
  have h : (index_hybrid_collection embedD embedS chunks brain_id).points =
      (indexChunks embedD embedS brain_id chunks).1 := rfl
  rw [h, indexChunks_points_eq]
  refine ⟨rfl, ?_⟩
  intro p hp
  obtain ⟨c, hc, rfl⟩ := List.mem_map.1 hp
  have hcond := (List.mem_filter.1 hc).2
  simp only [Bool.and_eq_true] at hcond
  exact ⟨hcond.1, hcond.2⟩

/-! ## Claim C3: success versus UnsupportedContent -/

theorem indexChunks_invalid_zero_iff (embedD embedS : String → Option Int)
    (brain_id : String) (chunks : List Chunk) :
    (indexChunks embedD embedS brain_id chunks).2.1 = 0 ↔
      ∀ c ∈ chunks,
        (embedD c.content).isSome = true ∧ (embedS c.content).isSome = true := by
  induction chunks with
  | nil => simp [indexChunks]
  | cons c cs ih =>
    simp only [indexChunks]
    cases hd : embedD c.content with
    | none =>
      cases hs : embedS c.content with
      | none => simp [hd, hs, ih]
      | some sv => simp [hd, hs, ih]
    | some dv =>
      cases hs : embedS c.content with
      | none => simp [hd, hs, ih]
      | some sv => simp [hd, hs, ih]

/-- Concrete embedder failing on one specific chunk content. -/
def c3embedD : String → Option Int :=
  fun s => if s == "bad" then none else some 1

/-- The ingestion of one fresh file with one good and one bad chunk. -/
def c3Run : EndpointResult Unit × List Event :=
  process_files c3embedD (fun _ => some 1) (fun _ => false)
    [IngestFile.mk "a.pdf" (Except.ok ["goodchunk", "bad"])] "b1"

/-- C3 counterexample: a file with two chunks of which exactly one embeds
successfully returns the 422 UnsupportedContent envelope even though a
chunk succeeded (its upsert event is in the trace): index_hybrid_collection
returns False whenever invalid_chunks is positive (source lines 73-76), not
only when all chunks failed. -/
theorem unsupported_despite_successful_chunk :
    c3Run.1 = EndpointResult.ok
      (send_response false 422 "PDF Content not supported for processing." ())
    ∧ Event.upsert "b1" "goodchunk" ∈ c3Run.2 := by
  refine ⟨by decide, by decide⟩

/-- C3 amended: for a single fresh file whose extraction yields a non-empty
chunk list, process_files returns the 201 success envelope exactly when
EVERY chunk embedded successfully, and the 422 UnsupportedContent envelope
exactly when AT LEAST ONE chunk failed an embedding - even if other chunks
succeeded and were upserted. -/
theorem unsupported_iff_some_chunk_failed (embedD embedS : String → Option Int)
    (existing : String → Bool) (f : IngestFile) (contents : List String)
    (brain_id : String)
    (hfresh : existing f.filename = false)
    (hex : f.extract = Except.ok contents)
    (hne : contents ≠ []) :
    ((process_files embedD embedS existing [f] brain_id).1 =
        EndpointResult.ok (send_response true 201 "Files Processed Successfully." ())
      ↔ ∀ s ∈ contents, (embedD s).isSome = true ∧ (embedS s).isSome = true)
    ∧ ((process_files embedD embedS existing [f] brain_id).1 =
        EndpointResult.ok
          (send_response false 422 "PDF Content not supported for processing." ())
      ↔ ¬ ∀ s ∈ contents, (embedD s).isSome = true ∧ (embedS s).isSome = true) := by
  have hloop : ingestLoop existing brain_id [f] [] =
      Except.ok
        (contents.map
          (fun c => Chunk.mk c ("uuid-" ++ f.filename) f.filename brain_id),
         [Event.check f.filename, Event.register f.filename]) := by
    simp [ingestLoop, hfresh, hex]
  have hnotempty : (contents.map
      (fun c => Chunk.mk c ("uuid-" ++ f.filename) f.filename brain_id)).isEmpty = false := by
    cases contents with
    | nil => exact absurd rfl hne
    | cons a as => rfl
  have hiff : (indexChunks embedD embedS brain_id
      (contents.map
        (fun c => Chunk.mk c ("uuid-" ++ f.filename) f.filename brain_id))).2.1 = 0 ↔
      ∀ s ∈ contents, (embedD s).isSome = true ∧ (embedS s).isSome = true := by
    rw [indexChunks_invalid_zero_iff]
    constructor
    · intro h s hs
      exact h (Chunk.mk s ("uuid-" ++ f.filename) f.filename brain_id)
        (List.mem_map.2 ⟨s, hs, rfl⟩)
    · intro h c hc
      obtain ⟨s, hs, rfl⟩ := List.mem_map.1 hc
      exact h s hs
  unfold process_files
  rw [hloop]
  simp only [hnotempty]
  by_cases hz : (indexChunks embedD embedS brain_id
      (contents.map
        (fun c => Chunk.mk c ("uuid-" ++ f.filename) f.filename brain_id))).2.1 = 0
  · have hsucc : (index_hybrid_collection embedD embedS
        (contents.map
          (fun c => Chunk.mk c ("uuid-" ++ f.filename) f.filename brain_id))
        brain_id).success = true := by
      simp [index_hybrid_collection, hz]
    simp only [Bool.false_eq_true, if_false, hsucc, if_true]
    constructor
    · constructor
      · intro _; exact hiff.1 hz
      · intro _; trivial
    · constructor
      · intro h
        exact absurd h (by decide)
      · intro h
        exact absurd (hiff.1 hz) h
  · have hsucc : (index_hybrid_collection embedD embedS
        (contents.map
          (fun c => Chunk.mk c ("uuid-" ++ f.filename) f.filename brain_id))
        brain_id).success = false := by
      simp [index_hybrid_collection, hz]
    simp only [Bool.false_eq_true, if_false, hsucc]
    constructor
    · constructor
      · intro h
        exact absurd h (by decide)
      · intro h
        exact absurd (hiff.2 h) hz
    · constructor
      · intro _
        exact fun hall => hz (hiff.2 hall)
      · intro _; trivial

/-- C3 amended witness: a fresh single-chunk file whose chunk embeds on both
models is processed with the 201 success envelope. -/
theorem unsupported_iff_some_chunk_failed_witness :
    (process_files (fun _ => some 1) (fun _ => some 1) (fun _ => false)
      [IngestFile.mk "w.pdf" (Except.ok ["wchunk"])] "b9").1 =
      EndpointResult.ok (send_response true 201 "Files Processed Successfully." ()) := by
  have h := unsupported_iff_some_chunk_failed (fun _ => some 1) (fun _ => some 1)
    (fun _ => false) (IngestFile.mk "w.pdf" (Except.ok ["wchunk"])) ["wchunk"] "b9"
    rfl rfl (by decide)
  exact h.1.mpr (by intro s hs; exact ⟨rfl, rfl⟩)

/-! ## Claim C2: the order of registry write and chunk upsert -/

/-- The per-file loop and process_files evaluated on one fresh file whose
single chunk embeds successfully. -/
def c2Run : EndpointResult Unit × List Event :=
  process_files (fun _ => some 1) (fun _ => some 1) (fun _ => false)
    [IngestFile.mk "a.pdf" (Except.ok ["alpha"])] "b1"

/-- C2 counterexample: for a fresh one-chunk file that embeds and upserts
successfully, the execution trace holds the registry write STRICTLY BEFORE
the chunk upsert: update_registry runs inside the per-file loop
(pdf_controller line 155) while indexing runs only after the loop (line
157), so the claimed order dedup-check, embed, upsert, register is false on
the code. -/
theorem register_precedes_upsert_counterexample :
    c2Run.2 = [Event.check "a.pdf", Event.register "a.pdf",
      Event.embedDense "alpha", Event.embedSparse "alpha",
      Event.upsert "b1" "alpha"]
    ∧ registerPrecedesUpsert c2Run.2 = true := by
  refine ⟨by decide, by decide⟩

theorem ingestLoop_ok_no_upsert (existing : String → Bool) (brain_id : String)
    (files : List IngestFile) :
    ∀ registered chunks evs,
      ingestLoop existing brain_id files registered = Except.ok (chunks, evs) →
      ∀ e ∈ evs, isUpsert e = false := by
  induction files with
  | nil =>
    intro registered chunks evs h e he
    simp only [ingestLoop] at h
    cases h
    simp at he
  | cons f fs ih =>
    intro registered chunks evs h e he
    simp only [ingestLoop] at h
    by_cases hskip : (existing f.filename || registered.contains f.filename) = true
    · rw [if_pos hskip] at h
      cases hrec : ingestLoop existing brain_id fs registered with
      | ok p =>
        rw [hrec] at h
        cases h
        rcases List.mem_cons.1 he with rfl | he2
        · rfl
        · exact ih registered p.1 p.2 (by rw [hrec]) e he2
      | error p =>
        rw [hrec] at h
        cases h
    · rw [if_neg hskip] at h
      cases hex : f.extract with
      | error msg => rw [hex] at h; cases h
      | ok contents =>
        rw [hex] at h
        cases hrec : ingestLoop existing brain_id fs (f.filename :: registered) with
        | ok p =>
          rw [hrec] at h
          cases h
          rcases List.mem_cons.1 he with rfl | he2
          · rfl
          · rcases List.mem_cons.1 he2 with rfl | he3
            · rfl
            · exact ih (f.filename :: registered) p.1 p.2 (by rw [hrec]) e he3
        | error p =>
          rw [hrec] at h
          cases h

theorem ingestLoop_error_no_upsert (existing : String → Bool) (brain_id : String)
    (files : List IngestFile) :
    ∀ registered msg evs,
      ingestLoop existing brain_id files registered = Except.error (msg, evs) →
      ∀ e ∈ evs, isUpsert e = false := by
  induction files with
  | nil =>
    intro registered msg evs h e he
    simp only [ingestLoop] at h
    cases h
  | cons f fs ih =>
    intro registered msg evs h e he
    simp only [ingestLoop] at h
    by_cases hskip : (existing f.filename || registered.contains f.filename) = true
    · rw [if_pos hskip] at h
      cases hrec : ingestLoop existing brain_id fs registered with
      | ok p => rw [hrec] at h; cases h
      | error p =>
        rw [hrec] at h
        cases h
        rcases List.mem_cons.1 he with rfl | he2
        · rfl
        · exact ih registered p.1 p.2 (by rw [hrec]) e he2
    · rw [if_neg hskip] at h
      cases hex : f.extract with
      | error m =>
        rw [hex] at h
        cases h
        rcases List.mem_cons.1 he with rfl | he2
        · rfl
        · simp at he2
      | ok contents =>
        rw [hex] at h
        cases hrec : ingestLoop existing brain_id fs (f.filename :: registered) with
        | ok p => rw [hrec] at h; cases h
        | error p =>
          rw [hrec] at h
          cases h
          rcases List.mem_cons.1 he with rfl | he2
          · rfl
          · rcases List.mem_cons.1 he2 with rfl | he3
            · rfl
            · exact ih (f.filename :: registered) p.1 p.2 (by rw [hrec]) e he3

theorem indexChunks_no_register (embedD embedS : String → Option Int)
    (brain_id : String) (chunks : List Chunk) :
    ∀ e ∈ (indexChunks embedD embedS brain_id chunks).2.2,
      isRegister e = false := by
  induction chunks with
  | nil => intro e he; simp [indexChunks] at he
  | cons c cs ih =>
    intro e he
    simp only [indexChunks] at he
    cases hd : embedD c.content with
    | none =>
      rw [hd] at he
      cases hs : embedS c.content with
      | none =>
        rw [hs] at he
        rcases List.mem_cons.1 he with rfl | he2
        · rfl
        · rcases List.mem_cons.1 he2 with rfl | he3
          · rfl
          · exact ih e he3
      | some sv =>
        rw [hs] at he
        rcases List.mem_cons.1 he with rfl | he2
        · rfl
        · rcases List.mem_cons.1 he2 with rfl | he3
          · rfl
          · exact ih e he3
    | some dv =>
      rw [hd] at he
      cases hs : embedS c.content with
      | none =>
        rw [hs] at he
        rcases List.mem_cons.1 he with rfl | he2
        · rfl
        · rcases List.mem_cons.1 he2 with rfl | he3
          · rfl
          · exact ih e he3
      | some sv =>
        rw [hs] at he
        rcases List.mem_cons.1 he with rfl | he2
        · rfl
        · rcases List.mem_cons.1 he2 with rfl | he3
          · rfl
          · rcases List.mem_cons.1 he3 with rfl | he4
            · rfl
            · exact ih e he4

/-- C2 amended: the registry write precedes the chunk upsert, not the other
way round: every process_files trace splits into a first phase with no
upserts (the dedup checks and the registry writes of the per-file loop)
followed by the indexing phase with no registry writes; in particular a
file may be registered although its chunks are never upserted. -/
theorem register_phase_before_upsert_phase (embedD embedS : String → Option Int)
    (existing : String → Bool) (files : List IngestFile) (brain_id : String) :
    ∃ l1 l2, (process_files embedD embedS existing files brain_id).2 = l1 ++ l2
      ∧ (∀ e ∈ l1, isUpsert e = false)
      ∧ (∀ e ∈ l2, isRegister e = false) := by
  unfold process_files
  cases hl : ingestLoop existing brain_id files [] with
  | error p =>
    refine ⟨p.2, [], by simp, ?_, by simp⟩
    exact ingestLoop_error_no_upsert existing brain_id files [] p.1 p.2
      (by rw [hl]) 
  | ok p =>
    by_cases hemp : p.1.isEmpty
    · refine ⟨p.2, [], by simp [hemp], ?_, by simp⟩
      exact ingestLoop_ok_no_upsert existing brain_id files [] p.1 p.2 (by rw [hl])
    · have hnoup := ingestLoop_ok_no_upsert existing brain_id files [] p.1 p.2
        (by rw [hl])
      have hnoreg := indexChunks_no_register embedD embedS brain_id p.1
      simp only [Bool.not_eq_true] at hemp
      refine ⟨p.2, (index_hybrid_collection embedD embedS p.1 brain_id).events,
        ?_, hnoup, hnoreg⟩
      simp only [hemp, Bool.false_eq_true, if_false]
      by_cases hsucc : (index_hybrid_collection embedD embedS p.1 brain_id).success = true
      · simp [hsucc]
      · simp only [Bool.not_eq_true] at hsucc
        simp [hsucc]

/-! ## Claim C8: a failing file and the rest of the batch -/

/-- A two-file batch whose first file raises during extraction. -/
def c8Run : EndpointResult Unit × List Event :=
  process_files (fun _ => some 1) (fun _ => some 1) (fun _ => false)
    [IngestFile.mk "bad.pdf" (Except.error "parser exploded"),
     IngestFile.mk "good.pdf" (Except.ok ["beta"])] "b1"

/-- C8 counterexample: an extraction error in the first file of a two-file
batch makes the WHOLE request fail with the handle_exception 500 envelope,
and the second file is never dedup-checked, chunked, embedded or upserted:
the only try/except in process_files wraps the whole batch loop. -/
theorem batch_abort_counterexample :
    c8Run.1 = EndpointResult.fail 500 "parser exploded occured during PDF Processing."
    ∧ c8Run.2 = [Event.check "bad.pdf"]
    ∧ Event.check "good.pdf" ∉ c8Run.2 := by
  refine ⟨by decide, by decide, by decide⟩

theorem ingestLoop_abort (existing : String → Bool) (brain_id : String)
    (pre : List IngestFile) (f : IngestFile) (post : List IngestFile)
    (e : String)
    (hpre : ∀ g ∈ pre, ∃ cs, g.extract = Except.ok cs)
    (hf : f.extract = Except.error e)
    (hfresh : existing f.filename = false)
    (hnodup : ∀ g ∈ pre, g.filename ≠ f.filename) :
    ∀ registered, registered.contains f.filename = false →
      ∃ evs, ingestLoop existing brain_id (pre ++ f :: post) registered =
          Except.error (e, evs) ∧ countChecks evs = pre.length + 1 := by
  induction pre with
  | nil =>
    intro registered hreg
    refine ⟨[Event.check f.filename], ?_, rfl⟩
    have hcond : (existing f.filename || registered.contains f.filename) = false := by
      rw [hfresh]
      simpa using hreg
    simp only [List.nil_append, ingestLoop, hcond, Bool.false_eq_true, if_false, hf]
  | cons g gs ih =>
    intro registered hreg
    have hpre2 : ∀ x ∈ gs, ∃ cs, x.extract = Except.ok cs :=
      fun x hx => hpre x (List.mem_cons_of_mem g hx)
    have hnodup2 : ∀ x ∈ gs, x.filename ≠ f.filename :=
      fun x hx => hnodup x (List.mem_cons_of_mem g hx)
    by_cases hskip : (existing g.filename || registered.contains g.filename) = true
    · obtain ⟨evs, hloop, hcount⟩ := ih hpre2 hnodup2 registered hreg
      refine ⟨Event.check g.filename :: evs, ?_, ?_⟩
      · simp only [List.cons_append, ingestLoop, if_pos hskip, List.append_eq, hloop]
      · simp [countChecks, List.filter_cons, isCheck] at hcount ⊢
        omega
    · have hcontains : (g.filename :: registered).contains f.filename = false := by
        have hne : g.filename ≠ f.filename := hnodup g (List.mem_cons_self g gs)
        simp only [List.contains_cons, Bool.or_eq_false_iff]
        constructor
        · exact beq_eq_false_iff_ne.2 (fun hx => hne hx.symm)
        · exact hreg
      obtain ⟨cs, hcs⟩ := hpre g (List.mem_cons_self g gs)
      obtain ⟨evs, hloop, hcount⟩ := ih hpre2 hnodup2 (g.filename :: registered) hcontains
      refine ⟨Event.check g.filename :: Event.register g.filename :: evs, ?_, ?_⟩
      · simp only [List.cons_append, ingestLoop, if_neg hskip, hcs, List.append_eq, hloop]
      · simp [countChecks, List.filter_cons, isCheck] at hcount ⊢
        omega

/-- C8 amended: an unrecoverable extraction error in ONE file aborts the
WHOLE batch, not only that file: for any batch consisting of files that
extract cleanly followed by a failing fresh file and arbitrary remaining
files, the request returns the handle_exception 500 envelope, the trace
holds exactly one dedup check per file up to and including the failing one
(so the remaining files are never dedup-checked, chunked, embedded or
upserted), and no chunk of any file is ever upserted. -/
theorem extraction_error_aborts_whole_batch (embedD embedS : String → Option Int)
    (existing : String → Bool) (pre : List IngestFile) (f : IngestFile)
    (post : List IngestFile) (e : String) (brain_id : String)
    (hpre : ∀ g ∈ pre, ∃ cs, g.extract = Except.ok cs)
    (hf : f.extract = Except.error e)
    (hfresh : existing f.filename = false)
    (hnodup : ∀ g ∈ pre, g.filename ≠ f.filename) :
    (process_files embedD embedS existing (pre ++ f :: post) brain_id).1 =
        EndpointResult.fail 500 (e ++ " occured during PDF Processing.")
    ∧ countChecks
        (process_files embedD embedS existing (pre ++ f :: post) brain_id).2 =
        pre.length + 1
    ∧ ∀ ev ∈ (process_files embedD embedS existing (pre ++ f :: post) brain_id).2,
        isUpsert ev = false := by
  obtain ⟨evs, hloop, hcount⟩ :=
    ingestLoop_abort existing brain_id pre f post e hpre hf hfresh hnodup [] rfl
  have hres : process_files embedD embedS existing (pre ++ f :: post) brain_id =
      (EndpointResult.fail 500 (e ++ " occured during PDF Processing."), evs) := by
    unfold process_files
    rw [hloop]
  rw [hres]
  refine ⟨rfl, hcount, ?_⟩
  exact ingestLoop_error_no_upsert existing brain_id (pre ++ f :: post) [] e evs hloop

/-- C8 amended witness: in a concrete three-file batch whose second file
fails extraction, the whole request returns the 500 envelope. -/
theorem extraction_error_aborts_whole_batch_witness :
    (process_files (fun _ => some 1) (fun _ => some 1) (fun _ => false)
      ([IngestFile.mk "one.pdf" (Except.ok ["gamma"])] ++
        IngestFile.mk "two.pdf" (Except.error "boom") ::
        [IngestFile.mk "three.pdf" (Except.ok ["delta"])]) "b2").1 =
      EndpointResult.fail 500 "boom occured during PDF Processing." := by
  have h := extraction_error_aborts_whole_batch (fun _ => some 1) (fun _ => some 1)
    (fun _ => false) [IngestFile.mk "one.pdf" (Except.ok ["gamma"])]
    (IngestFile.mk "two.pdf" (Except.error "boom"))
    [IngestFile.mk "three.pdf" (Except.ok ["delta"])] "boom" "b2"
    (by
      intro g hg
      rcases List.mem_singleton.1 hg with rfl
      exact ⟨["gamma"], rfl⟩)
    rfl rfl
    (by
      intro g hg
      rcases List.mem_singleton.1 hg with rfl
      decide)
  exact h.1

/-! ## Claim C10: list_files hides store failures -/

def isError {ε α : Type} : Except ε α → Bool
  | .error _ => true
  | .ok _ => false

/-- C10: if the registry count call or the scroll call raises, list_files
catches the error and returns the empty list, and the endpoint then
produces exactly the 404 "Please upload some PDFs" envelope it produces for
a brain with no files: a caller cannot tell a store failure from an empty
brain. -/
theorem list_files_store_failure_hidden (store : RegistryStore)
    (brain_id : String)
    (hfail : isError store.countResult = true
      ∨ ∃ n, store.countResult = Except.ok n
          ∧ isError (store.scroll brain_id (if n == 0 then n + 1 else n)) = true) :
    list_files store brain_id = []
    ∧ list_files_endpoint store brain_id = list_files_endpoint emptyRegistryStore brain_id
    ∧ list_files_endpoint store brain_id =
        EndpointResult.ok (send_response false 404
          "Please upload some PDFs in the selected Brain." []) := by
  have hempty : list_files store brain_id = [] := by
    rcases hfail with h | ⟨n, hn, hs⟩
    · cases hc : store.countResult with
      | error msg => simp [list_files, hc]
      | ok n => rw [hc] at h; simp [isError] at h
    · cases hs2 : store.scroll brain_id (if n == 0 then n + 1 else n) with
      | error msg =>
        have hs3 : store.scroll brain_id (if n = 0 then n + 1 else n) =
            Except.error msg := by simpa using hs2
        simp [list_files, hn, hs3]
      | ok pts => rw [hs2] at hs; simp [isError] at hs
  refine ⟨hempty, ?_, ?_⟩
  · unfold list_files_endpoint
    rw [hempty]
    rfl
  · unfold list_files_endpoint
    rw [hempty]
    rfl

/-- A registry store whose every call raises. -/
def failingRegistryStore : RegistryStore :=
  ⟨Except.error "connection refused", fun _ _ => Except.error "connection refused"⟩

/-- C10 witness: the failing store is indistinguishable from the empty one. -/
theorem list_files_store_failure_hidden_witness :
    list_files_endpoint failingRegistryStore "b1" =
      EndpointResult.ok (send_response false 404
        "Please upload some PDFs in the selected Brain." []) :=
  (list_files_store_failure_hidden failingRegistryStore "b1" (Or.inl rfl)).2.2
